import Mathlib

/-!
Verification of the calendar-status dashboard core.

Time is modelled as `Int`: microseconds since the Unix epoch (Python
`datetime` objects have microsecond resolution, and the code's smallest
time increment is `timedelta(microseconds=1)`).  `datetime(1970,1,1)`
is `0`.  Durations from `timedelta(minutes=m)` are `m * 60000000`.

Source files embedded: `calendar_event.py` (event parsing and
classification), `calendar_manager.py` (per-calendar aggregation and
the dual-layer cache), `dashboard_server.py` (the scheduler's sleep
computation).
-/

namespace Dashboard

/-- One microsecond, the smallest representable time increment. -/
def MICROSECOND : Int := 1

/-- `timedelta(minutes=m)` in microseconds. -/
def minutesDelta (m : Int) : Int := m * 60000000

/-- `config.CALENDAR_MAX_FETCH_INTERVAL_SECONDS = 12 * 3600` (seconds). -/
def CALENDAR_MAX_FETCH_INTERVAL_SECONDS : Int := 12 * 3600

/-- The raw `start`/`end` field of an event record from the provider:
either the `dateTime` key is absent (all-day marker / missing field),
or it is present but `datetime.fromisoformat` fails, or it parses to a
timezone-normalized instant. -/
inductive TimeField where
  | missing : TimeField
  | unparsable : TimeField
  | parsed : Int → TimeField
deriving DecidableEq, Repr

/-- A raw event record: its `start` field and its `end` field. -/
structure RawEvent where
  startField : TimeField
  endField : TimeField
deriving DecidableEq, Repr

/-- `CalendarEvent._parse_times`: `self.start`/`self.end` are set only
when both `dateTime` strings are present and both parse; any absent
key, absent `dateTime`, or parse exception leaves both `None`. -/
def parse_times (ev : RawEvent) : Option (Int × Int) :=
  match ev.startField, ev.endField with
  | .parsed s, .parsed e => some (s, e)
  | _, _ => none

/-- `CalendarEvent.is_valid`: both timestamps parsed. -/
def is_valid (ev : RawEvent) : Bool := (parse_times ev).isSome

/-- Calendar status values. -/
inductive Status where
  | FREE : Status
  | PREPARE : Status
  | PENDING : Status
  | BUSY : Status
  | ERROR : Status
deriving DecidableEq, Repr

/-- `CalendarManager.PRIORITY_MAP`. -/
def PRIORITY_MAP : Status → Int
  | .BUSY => 3
  | .PENDING => 2
  | .PREPARE => 1
  | .FREE => 0
  | .ERROR => -1

/-- `CalendarEvent.get_status(now_utc, pending_delta, prepare_delta,
has_prepare_status)`.  The Python if/elif chain is flattened: the two
sub-branches of case 3 are guarded by `has_prepare_status and
prepare_delta > pending_delta`, and when neither sub-branch fires
control falls through to case 4. -/
def get_status (ev : RawEvent) (now_utc pending_delta prepare_delta : Int)
    (has_prepare_status : Bool) : Status × Option Int :=
  match parse_times ev with
  | none => (.FREE, none)
  | some (s, e) =>
    if s ≤ now_utc ∧ now_utc < e then
      (.BUSY, some (e + MICROSECOND))
    else if s - pending_delta ≤ now_utc ∧ now_utc < s then
      (.PENDING, some s)
    else if has_prepare_status = true ∧ prepare_delta > pending_delta
        ∧ s - prepare_delta ≤ now_utc ∧ now_utc < s - pending_delta then
      (.PREPARE, some (s - pending_delta))
    else if has_prepare_status = true ∧ prepare_delta > pending_delta
        ∧ s > now_utc then
      (.FREE, some (s - prepare_delta))
    else if s > now_utc then
      (.FREE, some (s - pending_delta))
    else
      (.FREE, none)

/-- A `{'class': ..., 'text': ...}` display-details dict. -/
structure StatusDetails where
  cls : String
  text : String
deriving DecidableEq, Repr

/-- A per-calendar `statuses` dict: which of the five status keys are
present, and their details.  `none` = key absent. -/
structure StatusMap where
  FREE : Option StatusDetails
  PREPARE : Option StatusDetails
  PENDING : Option StatusDetails
  BUSY : Option StatusDetails
  ERROR : Option StatusDetails
deriving DecidableEq, Repr

/-- `status_map.get(s)` (dict lookup returning `None` when absent). -/
def StatusMap.get (sm : StatusMap) : Status → Option StatusDetails
  | .FREE => sm.FREE
  | .PREPARE => sm.PREPARE
  | .PENDING => sm.PENDING
  | .BUSY => sm.BUSY
  | .ERROR => sm.ERROR

/-- One entry of `config.CALENDAR_CONFIGS`.  The optional fields model
`item.get('pending_minutes', 15)` / `item.get('prepare_minutes', 60)`. -/
structure ConfigItem where
  id : String
  name : String
  pending_minutes : Option Int
  prepare_minutes : Option Int
  statuses : StatusMap
deriving DecidableEq, Repr

/-- Fold step of the event loop in
`CalendarManager._resolve_status_for_calendar`: accumulator is
`(current_calendar_status, current_max_priority, next_change_time)`.
Invalid events are skipped (`continue`); a status wins only with
strictly greater priority; a transition is adopted only when it is a
real value (datetimes are always truthy) strictly after `now_utc`, and
only when strictly earlier than the one held. -/
def resolveStep (now_utc pending_delta prepare_delta : Int)
    (has_prepare_status : Bool) (acc : Status × Int × Option Int)
    (event_data : RawEvent) : Status × Int × Option Int :=
  if is_valid event_data = false then acc
  else
    let r := get_status event_data now_utc pending_delta prepare_delta
      has_prepare_status
    let priority := PRIORITY_MAP r.1
    let acc1 : Status × Int :=
      if priority > acc.2.1 then (r.1, priority) else (acc.1, acc.2.1)
    let nct : Option Int :=
      match r.2 with
      | some t =>
        if t > now_utc then
          match acc.2.2 with
          | none => some t
          | some n => if t < n then some t else some n
        else acc.2.2
      | none => acc.2.2
    (acc1.1, acc1.2, nct)

/-- The `pending_delta` used by `_resolve_status_for_calendar`. -/
def pendingDeltaOf (item : ConfigItem) : Int :=
  minutesDelta (item.pending_minutes.getD 15)

/-- The `prepare_delta` used by `_resolve_status_for_calendar`:
defaults to `pending_delta`, overridden when `'PREPARE' in statuses`. -/
def prepareDeltaOf (item : ConfigItem) : Int :=
  if item.statuses.PREPARE.isSome then
    minutesDelta (item.prepare_minutes.getD 60)
  else pendingDeltaOf item

/-- `CalendarManager._resolve_status_for_calendar`: scans every event
of the calendar (no early exit), returning the resolved status, the
earliest strictly-future transition, and the status map. -/
def resolve_status_for_calendar (events : List RawEvent)
    (item : ConfigItem) (now_utc : Int) :
    Status × Option Int × StatusMap :=
  let pending_delta := pendingDeltaOf item
  let prepare_delta := prepareDeltaOf item
  let has_prepare_status := item.statuses.PREPARE.isSome
  let r := events.foldl
    (resolveStep now_utc pending_delta prepare_delta has_prepare_status)
    (.FREE, 0, none)
  (r.1, r.2.2, item.statuses)

/-- One entry of the `current_statuses` list built by `check_status`. -/
structure StatusEntry where
  id : String
  name : String
  status : Status
  css_class : String
  display_text : String
deriving DecidableEq, Repr

/-- `status_map.get(cal_status, status_map.get('ERROR', {}))`, then the
falsy-dict fallback `{'class': '', 'text': ''}`. -/
def statusDetailsFor (sm : StatusMap) (s : Status) : StatusDetails :=
  match sm.get s with
  | some d => d
  | none =>
    match sm.get .ERROR with
    | some d => d
    | none => { cls := "", text := "" }

/-- The raw event cache: calendar id to fetched event list. -/
def EventCache : Type := List (String × List RawEvent)

instance : DecidableEq EventCache := by
  unfold EventCache
  infer_instance

/-- `self._local_event_cache.get(cal_id, [])`. -/
def cacheGet (cache : EventCache) (cal_id : String) : List RawEvent :=
  match cache.find? (fun p => p.1 == cal_id) with
  | some p => p.2
  | none => []

/-- The mutable state of a `CalendarManager`: the raw event cache layer
(`_local_event_cache`, `_last_cache_update`) and the computed-status
cache layer (`_computed_cache`). -/
structure ManagerState where
  configs : List ConfigItem
  local_event_cache : EventCache
  last_cache_update : Int
  computed_statuses : List StatusEntry
  computed_valid_until : Int
deriving DecidableEq

/-- `CalendarManager._fetch_from_api`, with the external fetch outcome
made explicit: `fetchResult = some newCache` models a successful
multi-calendar fetch performed at instant `fetchNow` (the method's own
`datetime.now`), `none` models any exception during the fetch, which
the method catches and turns into a log line, leaving every field
untouched.  On success the raw cache and timestamp are replaced and
the computed cache's `valid_until` is reset to `datetime(1970,1,1)`. -/
def fetch_from_api (st : ManagerState) (fetchNow : Int)
    (fetchResult : Option EventCache) : ManagerState :=
  match fetchResult with
  | some newCache =>
    { st with
      local_event_cache := newCache
      last_cache_update := fetchNow
      computed_valid_until := 0 }
  | none => st

/-- One iteration of the per-calendar loop in the recompute branch of
`CalendarManager.check_status`: resolves one calendar over the raw
cache, merges its next change into the global minimum (`if
cal_next_change:` — datetimes are always truthy), and appends its
display entry. -/
def recomputeStep (cache : EventCache) (now_utc : Int)
    (acc : List StatusEntry × Option Int) (item : ConfigItem) :
    List StatusEntry × Option Int :=
  let events := cacheGet cache item.id
  let r := resolve_status_for_calendar events item now_utc
  let gl : Option Int :=
    match r.2.1 with
    | some t =>
      match acc.2 with
      | none => some t
      | some g => if t < g then some t else some g
    | none => acc.2
  let details := statusDetailsFor r.2.2 r.1
  (acc.1 ++ [{ id := item.id, name := item.name, status := r.1,
               css_class := details.cls,
               display_text := details.text }], gl)

/-- The recompute branch of `CalendarManager.check_status`: runs the
per-calendar loop over the current raw cache, stores the result with
the new `valid_until` (the global next change when one exists,
otherwise `now + 365 days`), and returns
`(current_statuses, global_next_change_time)`. -/
def recompute (st : ManagerState) (now_utc : Int) :
    (List StatusEntry × Option Int) × ManagerState :=
  let folded := st.configs.foldl
    (recomputeStep st.local_event_cache now_utc) ([], none)
  let valid_until : Int :=
    match folded.2 with
    | some t => t
    | none => now_utc + minutesDelta (365 * 24 * 60)
  (⟨folded.1, folded.2⟩,
   { st with
     computed_statuses := folded.1
     computed_valid_until := valid_until })

/-- `CalendarManager.check_status(force_fetch)`.  `now_utc` is the
instant read at entry; `fetchNow`/`fetchResult` parametrize the
external fetch (used only when a fetch is triggered).  Returns the
`(statuses, next_change)` pair and the state after the call.  On a
computed-cache hit the second component is the stored `valid_until`;
on a recompute it is `global_next_change_time` (possibly `None`). -/
def check_status (st : ManagerState) (force_fetch : Bool)
    (now_utc fetchNow : Int) (fetchResult : Option EventCache) :
    (List StatusEntry × Option Int) × ManagerState :=
  let max_interval := CALENDAR_MAX_FETCH_INTERVAL_SECONDS * 1000000
  let time_since_last := now_utc - st.last_cache_update
  let st1 :=
    if force_fetch = true ∨ time_since_last > max_interval then
      fetch_from_api st fetchNow fetchResult
    else st
  if now_utc < st1.computed_valid_until then
    ((st1.computed_statuses, some st1.computed_valid_until), st1)
  else
    recompute st1 now_utc

/-- `MIN_SLEEP = 1` second, in microseconds. -/
def MIN_SLEEP : Int := 1000000

/-- `DEFAULT_SLEEP = 60` seconds, in microseconds. -/
def DEFAULT_SLEEP : Int := 60000000

/-- The sleep-duration computation of one `calendar_poller_in_background`
cycle (`dashboard_server.py`): given the next-change instant returned by
`check_status` and the current instant, in microseconds.  `if
time_until_change <= 0: MIN_SLEEP else max(time_until_change,
MIN_SLEEP)`, default `DEFAULT_SLEEP` when no instant is known, finally
capped at 3600 seconds. -/
def nextWake (next_change_time : Option Int) (now : Int) : Int :=
  let sleep_time : Int :=
    match next_change_time with
    | some t =>
      let time_until_change := t - now
      if time_until_change ≤ 0 then MIN_SLEEP
      else max time_until_change MIN_SLEEP
    | none => DEFAULT_SLEEP
  min sleep_time (3600 * 1000000)

/-! ## Specification-side helper definitions

Used to characterize what the aggregation fold computes: the minimum
of the future transition times over all events, and the maximum of the
event priorities. -/

/-- Minimum of two optional instants, `none` acting as "no instant". -/
def optMin : Option Int → Option Int → Option Int
  | none, b => b
  | some a, none => some a
  | some a, some b => some (min a b)

/-- Minimum of a list of instants (`none` for the empty list). -/
def listMinOpt : List Int → Option Int
  | [] => none
  | t :: ts =>
    match listMinOpt ts with
    | none => some t
    | some m => some (min t m)

/-- The transition time an event contributes to the aggregation: its
emitted transition, kept only when the event is valid and the
transition lies strictly in the future. -/
def futureTransition (now_utc pending_delta prepare_delta : Int)
    (hp : Bool) (ev : RawEvent) : Option Int :=
  if is_valid ev = true then
    match (get_status ev now_utc pending_delta prepare_delta hp).2 with
    | some t => if t > now_utc then some t else none
    | none => none
  else none

/-- The priority a valid event's status contributes. -/
def eventPriority (now_utc pending_delta prepare_delta : Int)
    (hp : Bool) (ev : RawEvent) : Int :=
  PRIORITY_MAP (get_status ev now_utc pending_delta prepare_delta hp).1

/-- The `'primary'` entry of `config.CALENDAR_CONFIGS` (no `PREPARE`). -/
def primaryStatusMap : StatusMap :=
  { FREE := some { cls := "status-green", text := "FREE" }
    PREPARE := none
    PENDING := some { cls := "status-yellow", text := "SOON" }
    BUSY := some { cls := "status-red", text := "BUSY" }
    ERROR := some { cls := "status-orange", text := "ERROR" } }

/-- The `'primary'` calendar configuration. -/
def primaryConfig : ConfigItem :=
  { id := "primary", name := "Primary Calendar",
    pending_minutes := some 15, prepare_minutes := none,
    statuses := primaryStatusMap }

/-- A status map with a `PREPARE` entry (the `'medical'` shape). -/
def medicalStatusMap : StatusMap :=
  { FREE := some { cls := "status-transparent", text := "" }
    PREPARE := some { cls := "status-blue", text := "PREP" }
    PENDING := some { cls := "medical-go", text := "LEAVE" }
    BUSY := some { cls := "medical-busy", text := "APT" }
    ERROR := some { cls := "status-orange", text := "ERROR" } }

/-- A calendar configuration with prepare enabled: pending window 15
minutes, prepare window 60 minutes. -/
def prepareConfig : ConfigItem :=
  { id := "medical", name := "Medical Appointments",
    pending_minutes := some 15, prepare_minutes := some 60,
    statuses := medicalStatusMap }

/-- A concrete manager state whose computed cache is valid until
instant 100 (used in concrete instances). -/
def hitState : ManagerState :=
  { configs := [], local_event_cache := [], last_cache_update := 0,
    computed_statuses := [], computed_valid_until := 100 }

/-- A concrete manager state whose computed cache is expired (used in
concrete instances). -/
def staleState : ManagerState :=
  { configs := [], local_event_cache := [], last_cache_update := 0,
    computed_statuses := [], computed_valid_until := 0 }

/-! ## Theorems -/

theorem optMin_none_right (a : Option Int) : optMin a none = a := by
  cases a <;> rfl

theorem optMin_assoc (a b c : Option Int) :
    optMin (optMin a b) c = optMin a (optMin b c) := by
  cases a <;> cases b <;> cases c <;> simp [optMin, min_assoc]

theorem listMinOpt_cons (t : Int) (l : List Int) :
    listMinOpt (t :: l) = optMin (some t) (listMinOpt l) := by
  cases h : listMinOpt l <;> simp [listMinOpt, optMin, h]

/-- An invalid event is skipped by the aggregation fold (`continue`). -/
theorem resolveStep_skip (now pd prd : Int) (hp : Bool)
    (acc : Status × Int × Option Int) (ev : RawEvent)
    (hv : is_valid ev = false) :
    resolveStep now pd prd hp acc ev = acc := by
  simp [resolveStep, hv]

/-- One fold step merges the event's qualifying future transition into
the running minimum. -/
theorem resolveStep_next (now pd prd : Int) (hp : Bool)
    (acc : Status × Int × Option Int) (ev : RawEvent) :
    (resolveStep now pd prd hp acc ev).2.2
      = optMin acc.2.2 (futureTransition now pd prd hp ev) := by
  obtain ⟨st, mp, nc⟩ := acc
  cases hv : is_valid ev
  · simp [resolveStep, futureTransition, hv, optMin_none_right]
  · simp only [resolveStep, futureTransition, hv, if_true, Bool.true_eq_false,
      if_false]
    cases hr : (get_status ev now pd prd hp).2 with
    | none => simp [hr, optMin_none_right]
    | some t =>
      simp only [hr]
      by_cases ht : t > now
      · cases nc with
        | none => simp [ht, optMin]
        | some n =>
          simp only [ht, if_true, optMin]
          rw [min_def]
          split_ifs <;> simp <;> omega
      · cases nc <;> simp [ht, optMin]

/-- One fold step raises the running maximum priority to the event's
priority (valid events). -/
theorem resolveStep_priority (now pd prd : Int) (hp : Bool)
    (acc : Status × Int × Option Int) (ev : RawEvent)
    (hv : is_valid ev = true) :
    (resolveStep now pd prd hp acc ev).2.1
      = max acc.2.1 (eventPriority now pd prd hp ev) := by
  obtain ⟨st, mp, nc⟩ := acc
  simp only [resolveStep, eventPriority, hv, Bool.true_eq_false, if_false]
  rw [max_def]
  split_ifs <;> simp <;> omega

/-- One fold step keeps the accumulator's status aligned with its
maximum priority. -/
theorem resolveStep_status (now pd prd : Int) (hp : Bool)
    (acc : Status × Int × Option Int) (ev : RawEvent)
    (hacc : PRIORITY_MAP acc.1 = acc.2.1) :
    PRIORITY_MAP (resolveStep now pd prd hp acc ev).1
      = (resolveStep now pd prd hp acc ev).2.1 := by
  obtain ⟨st, mp, nc⟩ := acc
  cases hv : is_valid ev
  · rw [resolveStep_skip _ _ _ _ _ _ hv]
    exact hacc
  · simp only [resolveStep, hv, Bool.true_eq_false, if_false]
    split_ifs <;> first | rfl | exact hacc

/-- The aggregation fold computes, in its next-change slot, the
minimum of the qualifying future transitions over all events. -/
theorem foldl_resolveStep_next (now pd prd : Int) (hp : Bool) :
    ∀ (events : List RawEvent) (acc : Status × Int × Option Int),
      (events.foldl (resolveStep now pd prd hp) acc).2.2
        = optMin acc.2.2
            (listMinOpt (events.filterMap (futureTransition now pd prd hp))) := by
  intro events
  induction events with
  | nil => intro acc; simp [listMinOpt, optMin_none_right]
  | cons ev evs ih =>
    intro acc
    rw [List.foldl_cons, ih]
    cases hft : futureTransition now pd prd hp ev with
    | none =>
      rw [resolveStep_next, hft, optMin_none_right,
        List.filterMap_cons_none hft]
    | some t =>
      rw [resolveStep_next, hft, List.filterMap_cons_some hft,
        listMinOpt_cons, optMin_assoc]

/-- The aggregation fold computes, in its priority slot, the maximum
of the valid events' priorities. -/
theorem foldl_resolveStep_priority (now pd prd : Int) (hp : Bool) :
    ∀ (events : List RawEvent) (acc : Status × Int × Option Int),
      (events.foldl (resolveStep now pd prd hp) acc).2.1
        = ((events.filter (fun ev => is_valid ev)).map
            (eventPriority now pd prd hp)).foldl max acc.2.1 := by
  intro events
  induction events with
  | nil => intro acc; simp
  | cons ev evs ih =>
    intro acc
    rw [List.foldl_cons]
    cases hv : is_valid ev
    · rw [resolveStep_skip _ _ _ _ _ _ hv, ih]
      simp [List.filter_cons, hv]
    · rw [ih]
      simp [List.filter_cons, hv, resolveStep_priority _ _ _ _ _ _ hv]

/-- The aggregation fold keeps the status aligned with the maximum
priority. -/
theorem foldl_resolveStep_status (now pd prd : Int) (hp : Bool) :
    ∀ (events : List RawEvent) (acc : Status × Int × Option Int),
      PRIORITY_MAP acc.1 = acc.2.1 →
      PRIORITY_MAP ((events.foldl (resolveStep now pd prd hp) acc)).1
        = (events.foldl (resolveStep now pd prd hp) acc).2.1 := by
  intro events
  induction events with
  | nil => intro acc hacc; simpa using hacc
  | cons ev evs ih =>
    intro acc hacc
    rw [List.foldl_cons]
    exact ih _ (resolveStep_status now pd prd hp acc ev hacc)

/-- C2: the per-calendar resolution considers every event: its
next-change is the minimum over all events of the emitted transition
times strictly in the future, and its status has the highest priority
among all valid events' statuses (strict `>` update); concretely, a
calendar with one BUSY event from now−30m to now+30m and one PENDING
event starting at now+10m resolves to BUSY with nextChange = now+10m. -/
theorem C2_resolution_min_and_priority :
    (∀ (events : List RawEvent) (item : ConfigItem) (now_utc : Int),
      (resolve_status_for_calendar events item now_utc).2.1
        = listMinOpt (events.filterMap (futureTransition now_utc
            (pendingDeltaOf item) (prepareDeltaOf item)
            item.statuses.PREPARE.isSome)))
    ∧ (∀ (events : List RawEvent) (item : ConfigItem) (now_utc : Int),
      PRIORITY_MAP (resolve_status_for_calendar events item now_utc).1
        = ((events.filter (fun ev => is_valid ev)).map
            (eventPriority now_utc (pendingDeltaOf item)
              (prepareDeltaOf item) item.statuses.PREPARE.isSome)).foldl
            max 0)
    ∧ resolve_status_for_calendar
        [⟨.parsed (-1800000000), .parsed 1800000000⟩,
         ⟨.parsed 600000000, .parsed 1500000000⟩] primaryConfig 0
      = (.BUSY, some 600000000, primaryStatusMap) := by
  refine ⟨?_, ?_, by decide⟩
  · intro events item now_utc
    unfold resolve_status_for_calendar
    dsimp only
    rw [foldl_resolveStep_next]
    rfl
  · intro events item now_utc
    unfold resolve_status_for_calendar
    dsimp only
    rw [foldl_resolveStep_status _ _ _ _ _ _ (by rfl),
      foldl_resolveStep_priority]

/-- C3: for every valid event and every instant `now` with
`start ≤ now < end`, `get_status` returns `BUSY` and
`nextTransition = end + ε` where `ε` is one microsecond, so the next
check observes the event as over. -/
theorem C3_busy_classification (ev : RawEvent) (s e now pending prepare : Int)
    (hp : Bool) (hparse : parse_times ev = some (s, e))
    (h1 : s ≤ now) (h2 : now < e) :
    get_status ev now pending prepare hp = (.BUSY, some (e + MICROSECOND)) ∧
      0 < MICROSECOND := by
  refine ⟨?_, by decide⟩
  unfold get_status
  rw [hparse]
  simp only [if_pos (And.intro h1 h2)]

/-- Witness for C3 at a concrete event. -/
theorem C3_busy_classification_witness :
    get_status ⟨.parsed 0, .parsed 10⟩ 5 1 2 true
      = (.BUSY, some (10 + MICROSECOND)) ∧ 0 < MICROSECOND :=
  C3_busy_classification ⟨.parsed 0, .parsed 10⟩ 0 10 5 1 2 true rfl
    (by decide) (by decide)

/-- C4: for every valid event with prepare enabled (`hasPrepare` and
`prepareWindow > pendingWindow`, pending window nonnegative) and
`start − prepareWindow ≤ now < start − pendingWindow`, `get_status`
returns `PREPARE` with transition `start − pendingWindow`; a single
event starting at now+45m with pending 15m and prepare 60m resolves
the calendar to `PREPARE` with next change now+30m. -/
theorem C4_prepare_classification :
    (∀ (ev : RawEvent) (s e now pending prepare : Int),
      parse_times ev = some (s, e) → 0 ≤ pending → prepare > pending →
      s - prepare ≤ now → now < s - pending →
      get_status ev now pending prepare true
        = (.PREPARE, some (s - pending)))
    ∧ resolve_status_for_calendar
        [⟨.parsed 2700000000, .parsed 6300000000⟩] prepareConfig 0
      = (.PREPARE, some 1800000000, medicalStatusMap) := by
  refine ⟨?_, by decide⟩
  intro ev s e now pending prepare hparse hpend hgt hw1 hw2
  unfold get_status
  rw [hparse]
  dsimp only
  rw [if_neg (by omega), if_neg (by omega),
    if_pos ⟨rfl, hgt, hw1, hw2⟩]

/-- Witness for C4 at a concrete event. -/
theorem C4_prepare_classification_witness :
    get_status ⟨.parsed 2700000000, .parsed 6300000000⟩ 0 900000000
      3600000000 true = (.PREPARE, some 1800000000) :=
  C4_prepare_classification.1 ⟨.parsed 2700000000, .parsed 6300000000⟩
    2700000000 6300000000 0 900000000 3600000000 rfl (by decide)
    (by decide) (by decide) (by decide)

/-- `get_status` never produces the `ERROR` status. -/
theorem get_status_ne_ERROR (ev : RawEvent) (now pd prd : Int) (hp : Bool) :
    (get_status ev now pd prd hp).1 ≠ .ERROR := by
  obtain ⟨sf, ef⟩ := ev
  cases sf <;> cases ef <;> simp only [get_status, parse_times] <;>
    try simp
  split_ifs <;> simp

/-- One fold step never introduces the `ERROR` status. -/
theorem resolveStep_ne_ERROR (now pd prd : Int) (hp : Bool)
    (acc : Status × Int × Option Int) (ev : RawEvent)
    (hacc : acc.1 ≠ .ERROR) :
    (resolveStep now pd prd hp acc ev).1 ≠ .ERROR := by
  obtain ⟨st, mp, nc⟩ := acc
  simp only [resolveStep]
  split_ifs
  · exact hacc
  · exact get_status_ne_ERROR ev now pd prd hp
  · exact hacc

/-- The aggregation fold never introduces the `ERROR` status. -/
theorem foldl_resolveStep_ne_ERROR (now pd prd : Int) (hp : Bool) :
    ∀ (events : List RawEvent) (acc : Status × Int × Option Int),
      acc.1 ≠ .ERROR →
      (events.foldl (resolveStep now pd prd hp) acc).1 ≠ .ERROR := by
  intro events
  induction events with
  | nil => intro acc hacc; exact hacc
  | cons ev evs ih =>
    intro acc hacc
    rw [List.foldl_cons]
    exact ih _ (resolveStep_ne_ERROR now pd prd hp acc ev hacc)

/-- C5: an event whose start or end timestamp is absent or unparsable
classifies as `(FREE, None)`, is skipped by the aggregation (removing
it from the event list changes nothing), and the per-calendar
resolution never yields the `ERROR` status. -/
theorem C5_invalid_events_inert :
    (∀ (ev : RawEvent) (now pd prd : Int) (hp : Bool),
      parse_times ev = none → get_status ev now pd prd hp = (.FREE, none))
    ∧ (∀ (evs1 evs2 : List RawEvent) (bad : RawEvent) (item : ConfigItem)
        (now_utc : Int), parse_times bad = none →
        resolve_status_for_calendar (evs1 ++ bad :: evs2) item now_utc
          = resolve_status_for_calendar (evs1 ++ evs2) item now_utc)
    ∧ (∀ (events : List RawEvent) (item : ConfigItem) (now_utc : Int),
        (resolve_status_for_calendar events item now_utc).1 ≠ .ERROR) := by
  refine ⟨?_, ?_, ?_⟩
  · intro ev now pd prd hp h
    unfold get_status
    rw [h]
  · intro evs1 evs2 bad item now_utc hbad
    have hv : is_valid bad = false := by simp [is_valid, hbad]
    unfold resolve_status_for_calendar
    dsimp only
    rw [List.foldl_append, List.foldl_append, List.foldl_cons,
      resolveStep_skip _ _ _ _ _ _ hv]
  · intro events item now_utc
    unfold resolve_status_for_calendar
    dsimp only
    exact foldl_resolveStep_ne_ERROR _ _ _ _ events _ (by decide)

/-- Witness for C5 at a concrete malformed (all-day) event. -/
theorem C5_invalid_events_inert_witness :
    parse_times ⟨.missing, .parsed 5⟩ = none ∧
    resolve_status_for_calendar
        ([] ++ ⟨.missing, .parsed 5⟩ :: [⟨.parsed 1, .parsed 2⟩])
        primaryConfig 0
      = resolve_status_for_calendar ([] ++ [⟨.parsed 1, .parsed 2⟩])
          primaryConfig 0 :=
  ⟨rfl, C5_invalid_events_inert.2.1 [] [⟨.parsed 1, .parsed 2⟩]
    ⟨.missing, .parsed 5⟩ primaryConfig 0 rfl⟩

/-- C1: with the computed cache valid at both instants and the raw
cache not stale, two `check_status(force_fetch=False)` calls both
return the memoized `(statuses, valid_until)` pair unchanged and leave
the state untouched: no second recomputation happens. -/
theorem C1_cache_hit_idempotent (st : ManagerState)
    (now1 now2 fn1 fn2 : Int) (fr1 fr2 : Option EventCache)
    (h1 : now1 < st.computed_valid_until)
    (h2 : now2 < st.computed_valid_until)
    (hs1 : now1 - st.last_cache_update
      ≤ CALENDAR_MAX_FETCH_INTERVAL_SECONDS * 1000000)
    (hs2 : now2 - st.last_cache_update
      ≤ CALENDAR_MAX_FETCH_INTERVAL_SECONDS * 1000000) :
    check_status st false now1 fn1 fr1
      = ((st.computed_statuses, some st.computed_valid_until), st)
    ∧ check_status (check_status st false now1 fn1 fr1).2 false now2 fn2 fr2
      = ((st.computed_statuses, some st.computed_valid_until), st) := by
  have key : ∀ (now_utc fn : Int) (fr : Option EventCache),
      now_utc < st.computed_valid_until →
      now_utc - st.last_cache_update
        ≤ CALENDAR_MAX_FETCH_INTERVAL_SECONDS * 1000000 →
      check_status st false now_utc fn fr
        = ((st.computed_statuses, some st.computed_valid_until), st) := by
    intro now_utc fn fr hv hs
    unfold check_status
    dsimp only
    have hc : ¬(false = true ∨ now_utc - st.last_cache_update
        > CALENDAR_MAX_FETCH_INTERVAL_SECONDS * 1000000) := by
      rintro (hfalse | hgt)
      · exact Bool.noConfusion hfalse
      · omega
    rw [if_neg hc, if_pos hv]
  refine ⟨key now1 fn1 fr1 h1 hs1, ?_⟩
  rw [key now1 fn1 fr1 h1 hs1]
  exact key now2 fn2 fr2 h2 hs2

/-- Witness for C1 at a concrete state with a valid computed cache. -/
theorem C1_cache_hit_idempotent_witness :
    check_status hitState false 10 11 none
      = ((hitState.computed_statuses, some hitState.computed_valid_until),
         hitState)
    ∧ check_status (check_status hitState false 10 11 none).2 false 20 21 none
      = ((hitState.computed_statuses, some hitState.computed_valid_until),
         hitState) :=
  C1_cache_hit_idempotent hitState 10 20 11 21 none none (by decide)
    (by decide) (by decide) (by decide)

/-- C6 counterexample: after `check_status(force_fetch=True)` with a
successful fetch, `valid_until` is not the distant past (the same call
already recomputed and stored a fresh horizon), and the very next
`check_status` call does not recompute: it returns the memoized cache
and leaves the state unchanged. -/
theorem C6_counterexample :
    (check_status staleState true 10 11 (some [])).2.computed_valid_until ≠ 0
    ∧ check_status (check_status staleState true 10 11 (some [])).2
        false 20 21 none
      = (((check_status staleState true 10 11 (some [])).2.computed_statuses,
          some (check_status staleState true 10 11
            (some [])).2.computed_valid_until),
         (check_status staleState true 10 11 (some [])).2) := by
  decide

/-- C6 (amended): after the refresh step of `check_status(True)` with
a successful fetch at an instant later than the previous refresh,
`lastRefreshed` strictly increases and `valid_until` is reset to the
distant past, so the computation inside that same call is a full
recomputation (never served from the pre-refresh computed cache). -/
theorem C6_forced_refresh_invalidates (st : ManagerState)
    (now_utc fetchNow : Int) (newCache : EventCache)
    (hmono : st.last_cache_update < fetchNow) (hepoch : 0 ≤ now_utc) :
    (fetch_from_api st fetchNow (some newCache)).last_cache_update
        > st.last_cache_update
    ∧ (fetch_from_api st fetchNow (some newCache)).computed_valid_until = 0
    ∧ check_status st true now_utc fetchNow (some newCache)
        = recompute (fetch_from_api st fetchNow (some newCache)) now_utc
    ∧ (check_status st true now_utc fetchNow
        (some newCache)).2.last_cache_update > st.last_cache_update := by
  have h3 : check_status st true now_utc fetchNow (some newCache)
      = recompute (fetch_from_api st fetchNow (some newCache)) now_utc := by
    unfold check_status
    dsimp only
    rw [if_pos (Or.inl rfl), if_neg (by simp [fetch_from_api]; omega)]
  refine ⟨hmono, rfl, h3, ?_⟩
  rw [h3]
  exact hmono

/-- Witness for the amended C6 at a concrete state. -/
theorem C6_forced_refresh_invalidates_witness :
    (fetch_from_api staleState 11 (some [])).last_cache_update
        > staleState.last_cache_update
    ∧ (fetch_from_api staleState 11 (some [])).computed_valid_until = 0
    ∧ check_status staleState true 10 11 (some [])
        = recompute (fetch_from_api staleState 11 (some [])) 10
    ∧ (check_status staleState true 10 11
        (some [])).2.last_cache_update > staleState.last_cache_update :=
  C6_forced_refresh_invalidates staleState 10 11 [] (by decide) (by decide)

/-- C7: a failed fetch leaves the manager state bit-identical (no
exception escapes: the failure is absorbed), and a `check_status` call
whose fetch fails behaves exactly like a call with no fetch at all —
the stale raw cache serves the read, and the raw cache layer
(`local_event_cache`, `last_cache_update`) keeps its previous values. -/
theorem C7_fetch_failure_preserves_cache (st : ManagerState)
    (force : Bool) (now_utc fetchNow : Int) :
    fetch_from_api st fetchNow none = st
    ∧ check_status st force now_utc fetchNow none
        = (if now_utc < st.computed_valid_until
           then ((st.computed_statuses, some st.computed_valid_until), st)
           else recompute st now_utc)
    ∧ (check_status st force now_utc fetchNow none).2.local_event_cache
        = st.local_event_cache
    ∧ (check_status st force now_utc fetchNow none).2.last_cache_update
        = st.last_cache_update := by
  have heq : check_status st force now_utc fetchNow none
      = (if now_utc < st.computed_valid_until
         then ((st.computed_statuses, some st.computed_valid_until), st)
         else recompute st now_utc) := by
    unfold check_status
    dsimp only
    rw [show fetch_from_api st fetchNow none = st from rfl, ite_self]
  refine ⟨rfl, heq, ?_, ?_⟩ <;> rw [heq] <;> split_ifs <;> rfl

/-- C9: when a next-change instant is known the scheduler sleeps
`max(nextChange − now, MIN_SLEEP)` clamped to the 3600-second cap;
when none is known it sleeps the 60-second default; in all cases the
sleep duration lies between `MIN_SLEEP` and the cap. -/
theorem C9_scheduler_sleep :
    (∀ t now : Int,
      nextWake (some t) now = min (max (t - now) MIN_SLEEP) (3600 * 1000000))
    ∧ (∀ now : Int, nextWake none now = DEFAULT_SLEEP)
    ∧ (∀ o : Option Int, ∀ now : Int,
        MIN_SLEEP ≤ nextWake o now ∧ nextWake o now ≤ 3600 * 1000000) := by
  refine ⟨?_, ?_, ?_⟩
  · intro t now
    simp only [nextWake, MIN_SLEEP]
    rw [min_def, min_def, max_def]
    split_ifs <;> omega
  · intro now
    simp only [nextWake, DEFAULT_SLEEP]
    rw [min_def]
    split_ifs <;> omega
  · intro o now
    cases o with
    | none =>
      simp only [nextWake, MIN_SLEEP, DEFAULT_SLEEP]
      rw [min_def]
      split_ifs <;> omega
    | some t =>
      simp only [nextWake, MIN_SLEEP]
      rw [min_def]
      constructor <;> rw [max_def] <;> split_ifs <;> omega

/-- One per-calendar iteration merges the calendar's next change into
the running global minimum. -/
theorem recomputeStep_next (cache : EventCache) (now_utc : Int)
    (acc : List StatusEntry × Option Int) (item : ConfigItem) :
    (recomputeStep cache now_utc acc item).2
      = optMin acc.2 (resolve_status_for_calendar
          (cacheGet cache item.id) item now_utc).2.1 := by
  obtain ⟨entries, gl⟩ := acc
  simp only [recomputeStep]
  cases hr : (resolve_status_for_calendar
      (cacheGet cache item.id) item now_utc).2.1 with
  | none => cases gl <;> rfl
  | some t =>
    cases gl with
    | none => rfl
    | some g =>
      simp only [optMin]
      rw [min_def]
      split_ifs <;> simp <;> omega

/-- The per-calendar loop computes the minimum of the per-calendar
next-change instants, ignoring calendars with none. -/
theorem foldl_recomputeStep_next (cache : EventCache) (now_utc : Int) :
    ∀ (configs : List ConfigItem) (acc : List StatusEntry × Option Int),
      (configs.foldl (recomputeStep cache now_utc) acc).2
        = optMin acc.2 (listMinOpt (configs.filterMap
            (fun item => (resolve_status_for_calendar
              (cacheGet cache item.id) item now_utc).2.1))) := by
  intro configs
  induction configs with
  | nil => intro acc; simp [listMinOpt, optMin_none_right]
  | cons item rest ih =>
    intro acc
    rw [List.foldl_cons, ih]
    cases hr : (resolve_status_for_calendar
        (cacheGet cache item.id) item now_utc).2.1 with
    | none =>
      rw [recomputeStep_next, hr, optMin_none_right,
        @List.filterMap_cons_none _ _
          (fun item => (resolve_status_for_calendar
            (cacheGet cache item.id) item now_utc).2.1) item rest hr]
    | some t =>
      rw [recomputeStep_next, hr,
        @List.filterMap_cons_some _ _
          (fun item => (resolve_status_for_calendar
            (cacheGet cache item.id) item now_utc).2.1) item rest t hr,
        listMinOpt_cons, optMin_assoc]

/-- An event entirely in the past classifies as `(FREE, None)`. -/
theorem get_status_past (ev : RawEvent) (s e now pd prd : Int) (hp : Bool)
    (hparse : parse_times ev = some (s, e)) (hpd : 0 ≤ pd)
    (hs : s ≤ now) (he : e ≤ now) :
    get_status ev now pd prd hp = (.FREE, none) := by
  unfold get_status
  rw [hparse]
  dsimp only
  rw [if_neg (by omega), if_neg (by omega),
    if_neg (by rintro ⟨-, -, -, hlt⟩; omega),
    if_neg (by rintro ⟨-, -, hgt⟩; omega), if_neg (by omega)]

/-- The aggregation fold ignores a list of entirely-past events. -/
theorem foldl_resolveStep_past (now pd prd : Int) (hp : Bool) :
    ∀ events : List RawEvent,
      (∀ ev ∈ events, ∀ s e : Int, parse_times ev = some (s, e) →
        s ≤ now ∧ e ≤ now) →
      0 ≤ pd →
      events.foldl (resolveStep now pd prd hp) (.FREE, 0, none)
        = (.FREE, 0, none) := by
  intro events
  induction events with
  | nil => intro hpast hpd; rfl
  | cons ev evs ih =>
    intro hpast hpd
    rw [List.foldl_cons]
    have hstep : resolveStep now pd prd hp (.FREE, 0, none) ev
        = (.FREE, 0, none) := by
      cases hv : is_valid ev
      · exact resolveStep_skip _ _ _ _ _ _ hv
      · rw [is_valid] at hv
        obtain ⟨⟨s, e⟩, hparse⟩ := Option.isSome_iff_exists.mp hv
        obtain ⟨hs, he⟩ := hpast ev (by simp) s e hparse
        simp only [resolveStep, is_valid, hparse, Option.isSome_some,
          Bool.true_eq_false, if_false]
        rw [get_status_past ev s e now pd prd hp hparse hpd hs he]
        simp [PRIORITY_MAP]
    rw [hstep]
    exact ih (fun ev2 hm s e hp2 => hpast ev2 (by simp [hm]) s e hp2) hpd

/-- C8: the recompute step takes the global next-change instant as the
minimum of the per-calendar next-change instants (ignoring calendars
with none); when none exists it stores `now + 365 days` as
`valid_until` (otherwise the instant itself); and a calendar whose
only events are entirely in the past resolves to `FREE` with no
next-change instant. -/
theorem C8_global_min_and_default_horizon :
    (∀ (st : ManagerState) (now_utc : Int),
      (recompute st now_utc).1.2
        = listMinOpt (st.configs.filterMap
            (fun item => (resolve_status_for_calendar
              (cacheGet st.local_event_cache item.id) item now_utc).2.1)))
    ∧ (∀ (st : ManagerState) (now_utc : Int),
        (recompute st now_utc).1.2 = none →
        (recompute st now_utc).2.computed_valid_until
          = now_utc + minutesDelta (365 * 24 * 60))
    ∧ (∀ (st : ManagerState) (now_utc t : Int),
        (recompute st now_utc).1.2 = some t →
        (recompute st now_utc).2.computed_valid_until = t)
    ∧ (∀ (events : List RawEvent) (item : ConfigItem) (now_utc : Int),
        0 ≤ pendingDeltaOf item →
        (∀ ev ∈ events, ∀ s e : Int, parse_times ev = some (s, e) →
          s ≤ now_utc ∧ e ≤ now_utc) →
        resolve_status_for_calendar events item now_utc
          = (.FREE, none, item.statuses)) := by
  refine ⟨?_, ?_, ?_, ?_⟩
  · intro st now_utc
    unfold recompute
    dsimp only
    rw [foldl_recomputeStep_next]
    rfl
  · intro st now_utc h
    unfold recompute at h ⊢
    dsimp only at h ⊢
    rw [h]
  · intro st now_utc t h
    unfold recompute at h ⊢
    dsimp only at h ⊢
    rw [h]
  · intro events item now_utc hpd hpast
    unfold resolve_status_for_calendar
    dsimp only
    rw [foldl_resolveStep_past _ _ _ _ events hpast hpd]

/-- Witness for C8 at concrete inputs. -/
theorem C8_global_min_and_default_horizon_witness :
    (recompute staleState 0).1.2 = none
    ∧ (recompute staleState 0).2.computed_valid_until
        = 0 + minutesDelta (365 * 24 * 60)
    ∧ resolve_status_for_calendar [⟨.parsed (-10), .parsed (-5)⟩]
        primaryConfig 0 = (.FREE, none, primaryConfig.statuses) := by
  refine ⟨by decide, C8_global_min_and_default_horizon.2.1 staleState 0
    (by decide), C8_global_min_and_default_horizon.2.2.2
    [⟨.parsed (-10), .parsed (-5)⟩] primaryConfig 0 (by decide) ?_⟩
  intro ev hm s e hp2
  simp only [List.mem_singleton] at hm
  subst hm
  simp only [parse_times, Option.some.injEq, Prod.mk.injEq] at hp2
  omega

/-- C10: every non-`None` transition time returned by `get_status` is
strictly greater than `now`, for all inputs; hence the aggregator's
`transition > now` filter never discards a valid event's transition. -/
theorem C10_transitions_strictly_future (ev : RawEvent)
    (now pending prepare : Int) (hp : Bool) (t : Int)
    (h : (get_status ev now pending prepare hp).2 = some t) :
    now < t := by
  obtain ⟨sf, ef⟩ := ev
  cases sf <;> cases ef <;> simp only [get_status, parse_times] at h <;>
    try exact Option.noConfusion h
  rename_i s e
  split_ifs at h with h1 h2 h3 h4 h5
  · simp only [MICROSECOND, Option.some.injEq] at h
    omega
  · simp only [Option.some.injEq] at h
    omega
  · simp only [Option.some.injEq] at h
    obtain ⟨-, -, -, hlt⟩ := h3
    omega
  · simp only [Option.some.injEq] at h
    obtain ⟨hb, hgt, hs⟩ := h4
    have hw : ¬(s - prepare ≤ now ∧ now < s - pending) :=
      fun hc => h3 ⟨hb, hgt, hc.1, hc.2⟩
    omega
  · simp only [Option.some.injEq] at h
    omega

/-- Witness for C10 at a concrete event. -/
theorem C10_transitions_strictly_future_witness :
    (get_status ⟨.parsed 0, .parsed 10⟩ 5 1 2 true).2 = some 11 ∧
      (5 : Int) < 11 :=
  ⟨rfl, C10_transitions_strictly_future ⟨.parsed 0, .parsed 10⟩ 5 1 2 true
    11 rfl⟩

end Dashboard
